import Mathlib

/-!
Verification of the filter-and-aggregate pipeline of the logistics
dashboard (`src/app.py`).

The pipeline is embedded shallowly:

* a pandas `DataFrame` row becomes a `Record`, and the frame itself a
  `List Record` in row order;
* the four sidebar multiselect widgets become a `FilterSpec` of accepted
  value lists (membership semantics);
* numeric results of pandas operations are modelled over `ℚ`; the IEEE
  NaN that pandas produces for undefined metrics (mean of an empty
  series, a 0/0 division) is modelled as `none` in `Option ℚ`.  In this
  pipeline a zero divisor only ever arrives together with a zero
  numerator (a sum over an empty selection), so infinities never arise
  and `Option ℚ` is a faithful carrier for every value the code computes.
-/

/-- One shipment record (one row of `Train.csv` after the `OnTime`
rename at line 38 of `app.py`).  Field names follow the column names the
source uses. `OnTime` is the 0/1 flag (1 = on time, 0 = late). -/
structure Record where
  Mode_of_Shipment : String
  Warehouse_block : String
  Product_importance : String
  Gender : String
  Customer_care_calls : Nat
  Cost_of_the_Product : ℚ
  Discount_offered : ℚ
  OnTime : Nat
deriving DecidableEq, Repr

/-- The four sidebar multiselect selections (lines 45-67 of `app.py`):
one list of accepted values per filterable field.  Only membership in
the list matters. -/
structure FilterSpec where
  shipment_mode : List String
  warehouse : List String
  product_importance : List String
  gender : List String
deriving DecidableEq, Repr

/-- The filter at lines 70-75 of `app.py`: keep a row iff each of the
four categorical fields is `isin` the corresponding accepted list. -/
def filtered_df (df : List Record) (s : FilterSpec) : List Record :=
  df.filter fun r =>
    decide (r.Mode_of_Shipment ∈ s.shipment_mode) &&
    decide (r.Warehouse_block ∈ s.warehouse) &&
    decide (r.Product_importance ∈ s.product_importance) &&
    decide (r.Gender ∈ s.gender)

/-- Values produced by the KPI arithmetic: `none` models pandas/numpy
NaN, the marker the source leaves in a metric that is undefined on the
current view (the spec's `UndefinedMetric`). -/
abbrev PFloat := Option ℚ

/-- Numeric division as the source performs it.  numpy's `0 / 0` is NaN;
in this pipeline the numerator is always a sum over the selection whose
size is the denominator, so a zero divisor implies a zero numerator and
the NaN case is the only division-by-zero case that can occur. -/
def fdiv : PFloat → PFloat → PFloat
  | some a, some b => if b = 0 then none else some (a / b)
  | _, _ => none

/-- Subtraction with NaN propagation. -/
def fsub : PFloat → PFloat → PFloat
  | some a, some b => some (a - b)
  | _, _ => none

/-- Multiplication with NaN propagation. -/
def fmul : PFloat → PFloat → PFloat
  | some a, some b => some (a * b)
  | _, _ => none

/-- pandas `Series.mean`: NaN on an empty series, the arithmetic mean
otherwise.  (The data contains no NaN entries, so NaN skipping is
irrelevant.) -/
def series_mean (xs : List ℚ) : PFloat :=
  if xs.isEmpty then none else some (xs.sum / (xs.length : ℚ))

/-- Insertion of one element into an ascending list (used to model the
sort inside pandas `median`). -/
def insertSorted (x : ℚ) : List ℚ → List ℚ
  | [] => [x]
  | y :: ys => if x ≤ y then x :: y :: ys else y :: insertSorted x ys

/-- Ascending insertion sort over `ℚ`. -/
def sortList (xs : List ℚ) : List ℚ :=
  xs.foldr insertSorted []

/-- pandas `Series.median`: NaN on an empty series; otherwise the middle
element of the sorted values, or the average of the two middle elements
for an even count. -/
def series_median (xs : List ℚ) : PFloat :=
  if xs.isEmpty then none
  else
    let s := sortList xs
    let n := xs.length
    if n % 2 = 1 then some (s.getD (n / 2) 0)
    else some ((s.getD (n / 2 - 1) 0 + s.getD (n / 2) 0) / 2)

/-- Strict `>` against a possibly-NaN threshold, as pandas evaluates
`column > median`: any comparison with NaN is `False`. -/
def fgt (x : ℚ) : PFloat → Bool
  | none => false
  | some m => decide (m < x)

/-- Line 86 of `app.py`: `total_orders = len(filtered_df)`. -/
def total_orders (v : List Record) : Nat := v.length

/-- The sum of the `OnTime` column of a view. -/
def sumOnTime (v : List Record) : Nat := (v.map Record.OnTime).sum

/-- Line 87 of `app.py`:
`on_time_rate = (filtered_df["OnTime"].sum() / total_orders) * 100`,
performed with no guard on `total_orders`. -/
def on_time_rate (v : List Record) : PFloat :=
  fmul (fdiv (some (sumOnTime v : ℚ)) (some (total_orders v : ℚ))) (some 100)

/-- Line 88 of `app.py`: `late_rate = 100 - on_time_rate`. -/
def late_rate (v : List Record) : PFloat :=
  fsub (some 100) (on_time_rate v)

/-- The late sub-view `filtered_df[filtered_df["OnTime"] == 0]`. -/
def lateRows (v : List Record) : List Record :=
  v.filter fun r => r.OnTime == 0

/-- Line 89 of `app.py`: mean discount over the late rows. -/
def avg_discount_late (v : List Record) : PFloat :=
  series_mean ((lateRows v).map Record.Discount_offered)

/-- Line 90 of `app.py`: mean customer-care calls over the late rows. -/
def avg_calls_late (v : List Record) : PFloat :=
  series_mean ((lateRows v).map fun r => (r.Customer_care_calls : ℚ))

/-- Line 92 of `app.py`: the rows whose cost is strictly greater than
the median cost of the current filtered view. -/
def high_value (v : List Record) : List Record :=
  v.filter fun r =>
    fgt r.Cost_of_the_Product (series_median (v.map Record.Cost_of_the_Product))

/-- Line 93 of `app.py`:
`high_value_late_rate = (1 - high_value["OnTime"].mean()) * 100`. -/
def high_value_late_rate (v : List Record) : PFloat :=
  fmul (fsub (some 1) (series_mean ((high_value v).map fun r => (r.OnTime : ℚ)))) (some 100)

/-- The domain of a categorical field of the dataset, as
`df[col].unique()` produces it for the widget defaults (lines 45-67):
the values present in the column, without duplicates. -/
def fieldDomain (df : List Record) (f : Record → String) : List String :=
  (df.map f).dedup

/-- The grouped counts behind the first chart (`px.histogram` at lines
119-128): one count per (shipment mode, on-time flag) pair observed in
the view. -/
def shipment_delivery_counts (v : List Record) : List ((String × Nat) × Nat) :=
  let pairs := v.map fun r => (r.Mode_of_Shipment, r.OnTime)
  pairs.dedup.map fun k => (k, (pairs.filter fun p => decide (p = k)).length)

/-- A sample record used to instantiate concrete views. -/
def recA : Record :=
  { Mode_of_Shipment := "Ship", Warehouse_block := "A", Product_importance := "low",
    Gender := "F", Customer_care_calls := 4, Cost_of_the_Product := 10,
    Discount_offered := 5, OnTime := 1 }

/-- The value of a field of any record of `df` belongs to that field's
domain. -/
theorem mem_fieldDomain {df : List Record} {f : Record → String} {r : Record}
    (hr : r ∈ df) : f r ∈ fieldDomain df f := by
  rw [fieldDomain, List.mem_dedup, List.mem_map]
  exact ⟨r, hr, rfl⟩

/-- C1: the filter keeps a record iff each of the four filterable fields
lies in its accepted set, and the kept rows form a sublist of the input
(original relative order, rows unchanged).  Purity and determinism are
inherent: `filtered_df` is a function of its two arguments alone. -/
theorem filtered_df_mem_iff_and_stable (df : List Record) (s : FilterSpec) :
    (filtered_df df s).Sublist df ∧
      ∀ r : Record, r ∈ filtered_df df s ↔
        r ∈ df ∧ r.Mode_of_Shipment ∈ s.shipment_mode ∧
          r.Warehouse_block ∈ s.warehouse ∧
          r.Product_importance ∈ s.product_importance ∧
          r.Gender ∈ s.gender := by
  refine ⟨List.filter_sublist _, fun r => ?_⟩
  simp [filtered_df, List.mem_filter, and_assoc]

/-- C4: an empty accepted set for any one of the four fields makes the
filtered view empty. -/
theorem empty_accepted_set_empty_view (df : List Record) (s : FilterSpec)
    (h : s.shipment_mode = [] ∨ s.warehouse = [] ∨
         s.product_importance = [] ∨ s.gender = []) :
    filtered_df df s = [] := by
  rcases h with h | h | h | h <;>
    simp [filtered_df, List.filter_eq_nil_iff, h]

/-- Witness for C4 at a one-row dataset whose gender accepted set is
empty. -/
theorem empty_accepted_set_empty_view_witness :
    filtered_df [recA] ⟨["Ship"], ["A"], ["low"], []⟩ = [] :=
  empty_accepted_set_empty_view [recA] ⟨["Ship"], ["A"], ["low"], []⟩
    (Or.inr (Or.inr (Or.inr rfl)))

/-- C7: a `FilterSpec` whose accepted sets coincide (as sets) with the
dataset's per-field domains filters nothing: the view is the whole
dataset. -/
theorem full_domain_spec_identity (df : List Record) (s : FilterSpec)
    (h1 : ∀ x ∈ s.shipment_mode, x ∈ fieldDomain df Record.Mode_of_Shipment)
    (h1' : ∀ x ∈ fieldDomain df Record.Mode_of_Shipment, x ∈ s.shipment_mode)
    (h2 : ∀ x ∈ s.warehouse, x ∈ fieldDomain df Record.Warehouse_block)
    (h2' : ∀ x ∈ fieldDomain df Record.Warehouse_block, x ∈ s.warehouse)
    (h3 : ∀ x ∈ s.product_importance, x ∈ fieldDomain df Record.Product_importance)
    (h3' : ∀ x ∈ fieldDomain df Record.Product_importance, x ∈ s.product_importance)
    (h4 : ∀ x ∈ s.gender, x ∈ fieldDomain df Record.Gender)
    (h4' : ∀ x ∈ fieldDomain df Record.Gender, x ∈ s.gender) :
    filtered_df df s = df := by
  rw [filtered_df, List.filter_eq_self]
  intro r hr
  simp only [Bool.and_eq_true, decide_eq_true_eq]
  exact ⟨⟨⟨h1' _ (mem_fieldDomain hr), h2' _ (mem_fieldDomain hr)⟩,
         h3' _ (mem_fieldDomain hr)⟩, h4' _ (mem_fieldDomain hr)⟩

/-- Witness for C7: the full-domain spec of a one-row dataset returns
the dataset itself. -/
theorem full_domain_spec_identity_witness :
    filtered_df [recA] ⟨["Ship"], ["A"], ["low"], ["F"]⟩ = [recA] :=
  full_domain_spec_identity [recA] ⟨["Ship"], ["A"], ["low"], ["F"]⟩
    (by decide) (by decide) (by decide) (by decide)
    (by decide) (by decide) (by decide) (by decide)

/-- C10: enlarging every accepted set never drops a retained row — the
filter is monotone in the `FilterSpec`. -/
theorem filtered_df_monotone (df : List Record) (s s' : FilterSpec)
    (h1 : ∀ x ∈ s.shipment_mode, x ∈ s'.shipment_mode)
    (h2 : ∀ x ∈ s.warehouse, x ∈ s'.warehouse)
    (h3 : ∀ x ∈ s.product_importance, x ∈ s'.product_importance)
    (h4 : ∀ x ∈ s.gender, x ∈ s'.gender) :
    ∀ r ∈ filtered_df df s, r ∈ filtered_df df s' := by
  intro r hr
  rw [filtered_df, List.mem_filter] at hr ⊢
  simp only [Bool.and_eq_true, decide_eq_true_eq] at hr ⊢
  obtain ⟨hdf, ⟨⟨ha, hb⟩, hc⟩, hd⟩ := hr
  exact ⟨hdf, ⟨⟨h1 _ ha, h2 _ hb⟩, h3 _ hc⟩, h4 _ hd⟩

/-- Witness for C10 at a one-row dataset and a strict widening of each
accepted set. -/
theorem filtered_df_monotone_witness :
    recA ∈ filtered_df [recA] ⟨["Ship", "Road"], ["A", "B"], ["low", "high"], ["F", "M"]⟩ :=
  filtered_df_monotone [recA] ⟨["Ship"], ["A"], ["low"], ["F"]⟩
    ⟨["Ship", "Road"], ["A", "B"], ["low", "high"], ["F", "M"]⟩
    (by decide) (by decide) (by decide) (by decide) recA (by decide)

/-- A late record with 5 customer-care calls and a 20% discount. -/
def recB : Record :=
  { Mode_of_Shipment := "Flight", Warehouse_block := "B", Product_importance := "high",
    Gender := "M", Customer_care_calls := 5, Cost_of_the_Product := 20,
    Discount_offered := 20, OnTime := 0 }

/-- C2 counterexample: on the empty view the source's `on_time_rate` is
literally the numeric division 0/0 (scaled by 100) — the division by
`total_orders` is performed, not guarded, and it leaves the NaN marker
rather than a signalled error. -/
theorem on_time_rate_unguarded_division_counterexample :
    total_orders ([] : List Record) = 0 ∧
    on_time_rate ([] : List Record) = fmul (fdiv (some 0) (some 0)) (some 100) ∧
    fdiv (some 0) (some 0) = (none : PFloat) ∧
    on_time_rate ([] : List Record) = none := by decide

/-- C2 amended: `on_time_rate` is the NaN marker exactly on the empty
view (the unguarded 0/0 evaluates to NaN) and equals
(sum of on-time flags / totalOrders) × 100 on every non-empty view. -/
theorem on_time_rate_eq (v : List Record) :
    on_time_rate v =
      if total_orders v = 0 then none
      else some (((sumOnTime v : ℚ) / (total_orders v : ℚ)) * 100) := by
  by_cases h : total_orders v = 0
  · simp [on_time_rate, fdiv, fmul, h]
  · have h' : ((total_orders v : ℚ)) ≠ 0 := Nat.cast_ne_zero.mpr h
    simp [on_time_rate, fdiv, fmul, h, h']

/-- C5 counterexample: the empty view has no late record (every row has
on-time flag 1, vacuously), both late-row means are undefined, and yet
`on_time_rate` is NaN, not 100. -/
theorem all_on_time_empty_view_counterexample :
    ([] : List Record).all (fun r => r.OnTime == 1) = true ∧
    avg_calls_late [] = none ∧ avg_discount_late [] = none ∧
    ¬ on_time_rate ([] : List Record) = some 100 := by decide

/-- C5 amended: on every NON-empty view whose rows are all on time, the
two late-row means are the undefined marker while `on_time_rate` still
evaluates to 100 — each metric is an independent function of the view,
so one metric being undefined never blocks a sibling. -/
theorem no_late_records_metrics (v : List Record) (hne : v ≠ [])
    (h : ∀ r ∈ v, r.OnTime = 1) :
    avg_calls_late v = none ∧ avg_discount_late v = none ∧
    on_time_rate v = some 100 := by
  have hlate : lateRows v = [] := by
    rw [lateRows, List.filter_eq_nil_iff]
    intro r hr
    simp [h r hr]
  have hrep : v.map Record.OnTime = List.replicate v.length 1 := by
    rw [List.eq_replicate_iff]
    constructor
    · exact v.length_map _
    · intro b hb
      obtain ⟨r, hr, rfl⟩ := List.mem_map.mp hb
      exact h r hr
  have hsum : sumOnTime v = v.length := by
    rw [sumOnTime, hrep, List.sum_replicate, smul_eq_mul, mul_one]
  have hlen : ((v.length : ℚ)) ≠ 0 :=
    Nat.cast_ne_zero.mpr (fun h0 => hne (List.length_eq_zero.mp h0))
  refine ⟨?_, ?_, ?_⟩
  · simp [avg_calls_late, hlate, series_mean]
  · simp [avg_discount_late, hlate, series_mean]
  · simp [on_time_rate, fdiv, fmul, total_orders, hsum, hlen, div_self]

/-- Witness for the amended C5 at a one-row on-time view. -/
theorem no_late_records_metrics_witness :
    avg_calls_late [recA] = none ∧ avg_discount_late [recA] = none ∧
    on_time_rate [recA] = some 100 :=
  no_late_records_metrics [recA] (by decide) (by decide)

/-- The 4-record view of the spec's worked example: on-time flags
[1, 0, 1, 1]; the single late record has 5 customer-care calls and a
discount of 20. -/
def viewC6 : List Record :=
  [recA,
   recB,
   { Mode_of_Shipment := "Road", Warehouse_block := "C", Product_importance := "medium",
     Gender := "F", Customer_care_calls := 2, Cost_of_the_Product := 11,
     Discount_offered := 6, OnTime := 1 },
   { Mode_of_Shipment := "Ship", Warehouse_block := "D", Product_importance := "low",
     Gender := "M", Customer_care_calls := 3, Cost_of_the_Product := 13,
     Discount_offered := 8, OnTime := 1 }]

/-- C6: on the worked example the KPI calculator yields
onTimeRate = 75, lateRate = 25 = 100 − 75, avgCallsLate = 5 and
avgDiscountLate = 20. -/
theorem kpi_worked_example :
    on_time_rate viewC6 = some 75 ∧
    late_rate viewC6 = some (100 - 75) ∧
    avg_calls_late viewC6 = some 5 ∧
    avg_discount_late viewC6 = some 20 := by
  norm_num [on_time_rate, late_rate, avg_calls_late, avg_discount_late,
    lateRows, series_mean, sumOnTime, total_orders, fdiv, fsub, fmul,
    viewC6, recA, recB, List.filter_cons, List.filter_nil]

/-- C3: the high-value partition holds exactly the rows of the view
whose cost strictly exceeds the median cost of the view itself (the
median is a function of the current view only), and the high-value late
rate is (1 − mean on-time flag over that partition) × 100, undefined
exactly when the partition is empty. -/
theorem high_value_late_rate_spec (v : List Record) :
    (∀ r : Record, r ∈ high_value v ↔
        r ∈ v ∧ ∃ m, series_median (v.map Record.Cost_of_the_Product) = some m ∧
          m < r.Cost_of_the_Product) ∧
    (high_value v = [] → high_value_late_rate v = none) ∧
    (high_value v ≠ [] →
      high_value_late_rate v =
        some ((1 - ((high_value v).map fun r => (r.OnTime : ℚ)).sum /
          (((high_value v).length : ℚ))) * 100)) := by
  refine ⟨fun r => ?_, fun h => ?_, fun h => ?_⟩
  · cases hm : series_median (v.map Record.Cost_of_the_Product) with
    | none => simp [high_value, List.mem_filter, fgt, hm]
    | some m => simp [high_value, List.mem_filter, fgt, hm]
  · simp [high_value_late_rate, h, series_mean, fsub, fmul]
  · obtain ⟨a, l, hal⟩ : ∃ a l, high_value v = a :: l := by
      cases hv : high_value v with
      | nil => exact absurd hv h
      | cons a l => exact ⟨a, l, rfl⟩
    rw [high_value_late_rate, hal]
    simp [series_mean, fsub, fmul]

/-- Witness for C3 at a two-row view with distinct costs: the partition
is the single row above the median and the formula evaluates there. -/
theorem high_value_late_rate_spec_witness :
    high_value_late_rate [recA, recB] =
      some ((1 - ((high_value [recA, recB]).map fun r => (r.OnTime : ℚ)).sum /
        (((high_value [recA, recB]).length : ℚ))) * 100) :=
  (high_value_late_rate_spec [recA, recB]).2.2 (by
    norm_num [high_value, series_median, sortList, insertSorted, fgt,
      recA, recB, List.filter_cons, List.filter_nil])

/-- C8: the (shipment mode, on-time flag) group counts contain exactly
the pairs observed in the view — absent pairs are omitted, never
zero-filled — and the counts sum to `total_orders`. -/
theorem shipment_delivery_counts_spec (v : List Record) :
    (∀ k : String × Nat,
        (∃ c, (k, c) ∈ shipment_delivery_counts v) ↔
          ∃ r ∈ v, (r.Mode_of_Shipment, r.OnTime) = k) ∧
    ((shipment_delivery_counts v).map Prod.snd).sum = total_orders v := by
  constructor
  · intro k
    constructor
    · rintro ⟨c, hc⟩
      rw [shipment_delivery_counts] at hc
      obtain ⟨k', hk', hkk⟩ := List.mem_map.mp hc
      obtain ⟨rfl, -⟩ := Prod.mk.injEq .. ▸ hkk
      obtain ⟨r, hr, hrk⟩ := List.mem_map.mp (List.mem_dedup.mp hk')
      exact ⟨r, hr, hrk⟩
    · rintro ⟨r, hr, rfl⟩
      refine ⟨((v.map fun t => (t.Mode_of_Shipment, t.OnTime)).filter
        fun p => decide (p = (r.Mode_of_Shipment, r.OnTime))).length, ?_⟩
      rw [shipment_delivery_counts]
      exact List.mem_map_of_mem _
        (List.mem_dedup.mpr (List.mem_map_of_mem _ hr))
  · rw [shipment_delivery_counts, total_orders]
    rw [List.map_map]
    have hfn : ∀ k ∈ (v.map fun r => (r.Mode_of_Shipment, r.OnTime)).dedup,
        (Prod.snd ∘ fun k => (k,
          ((v.map fun r => (r.Mode_of_Shipment, r.OnTime)).filter
            fun p => decide (p = k)).length)) k =
          @List.count (String × Nat) instBEqOfDecidableEq k
            (v.map fun r => (r.Mode_of_Shipment, r.OnTime)) := by
      intro k _
      show ((v.map fun r => (r.Mode_of_Shipment, r.OnTime)).filter
          fun p => decide (p = k)).length = _
      exact (List.countP_eq_length_filter _ _).symm
    rw [List.map_congr_left hfn]
    have h := List.sum_map_count_dedup_eq_length
      (v.map fun r => (r.Mode_of_Shipment, r.OnTime))
    rw [List.length_map] at h
    exact h

/-- The numeric columns of a view, in the order of the `Record` fields:
customer-care calls, cost, discount, on-time flag (the frame columns
`select_dtypes(include=np.number)` retains). -/
def numeric_columns (v : List Record) : List (List ℚ) :=
  [v.map fun r => (r.Customer_care_calls : ℚ),
   v.map Record.Cost_of_the_Product,
   v.map Record.Discount_offered,
   v.map fun r => (r.OnTime : ℚ)]

/-- Arithmetic mean of a rational column (0 on the empty column, where
it is only ever used multiplied into an empty sum). -/
def meanQ (xs : List ℚ) : ℚ := xs.sum / (xs.length : ℚ)

/-- Sum of products of deviations from the means — the numerator pandas
computes for the Pearson coefficient of two columns. -/
def covSum (xs ys : List ℚ) : ℚ :=
  (List.zipWith (fun a b => (a - meanQ xs) * (b - meanQ ys)) xs ys).sum

/-- Sum of squared deviations of one column (`covSum` of the column with
itself), the quantity whose square root pandas puts in the divisor. -/
def ssqdm (xs : List ℚ) : ℚ := covSum xs xs

/-- One entry of the Pearson correlation matrix, represented exactly.
The true real value is r = covSum / √(ssqdm xs · ssqdm ys); pandas
leaves NaN (here `none`) exactly when that divisor is zero, i.e. when
`ssqdm xs * ssqdm ys = 0`.  A defined entry is encoded through the
strictly monotone injection r ↦ r·|r|, which lands in ℚ:
r·|r| = covSum·|covSum| / (ssqdm xs · ssqdm ys).  Under this encoding
r = 1 iff the stored rational is 1, so "diagonal is exactly 1" is
faithfully expressible without square roots. -/
def corr_entry (xs ys : List ℚ) : Option ℚ :=
  if ssqdm xs * ssqdm ys = 0 then none
  else some (covSum xs ys * |covSum xs ys| / (ssqdm xs * ssqdm ys))

/-- The correlation heatmap data at lines 171-178 of `app.py`:
`filtered_df.select_dtypes(include=np.number).corr()`, one row per
numeric column. -/
def corr_matrix (v : List Record) : List (List (Option ℚ)) :=
  (numeric_columns v).map fun xs =>
    (numeric_columns v).map fun ys => corr_entry xs ys

/-- A second on-time record, differing from `recA`. -/
def recC : Record :=
  { Mode_of_Shipment := "Road", Warehouse_block := "C", Product_importance := "medium",
    Gender := "F", Customer_care_calls := 2, Cost_of_the_Product := 11,
    Discount_offered := 6, OnTime := 1 }

/-- Sums of squared deviations are nonnegative. -/
theorem ssqdm_nonneg (xs : List ℚ) : 0 ≤ ssqdm xs := by
  rw [ssqdm, covSum, List.zipWith_same]
  apply List.sum_nonneg
  intro x hx
  obtain ⟨a, -, rfl⟩ := List.mem_map.mp hx
  exact mul_self_nonneg _

/-- A constant column has zero sum of squared deviations. -/
theorem ssqdm_const_eq_zero (xs : List ℚ)
    (h : ∀ a ∈ xs, ∀ b ∈ xs, a = b) : ssqdm xs = 0 := by
  rw [ssqdm, covSum, List.zipWith_same]
  apply List.sum_eq_zero
  intro x hx
  obtain ⟨a, ha, rfl⟩ := List.mem_map.mp hx
  have hrep : xs = List.replicate xs.length a := by
    rw [List.eq_replicate_iff]
    exact ⟨rfl, fun b hb => h b hb a ha⟩
  have hlen : ((xs.length : ℚ)) ≠ 0 :=
    Nat.cast_ne_zero.mpr (by
      have := List.length_pos.mpr (List.ne_nil_of_mem ha)
      omega)
  have hsum : xs.sum = (xs.length : ℚ) * a := by
    conv_lhs => rw [hrep]
    rw [List.sum_replicate, nsmul_eq_mul]
  have hm : meanQ xs = a := by
    rw [meanQ, hsum, mul_comm, mul_div_assoc, div_self hlen, mul_one]
  rw [hm]
  ring

/-- C9 counterexample: a view of two distinct rows whose on-time flag is
constant.  The DIAGONAL entry of the correlation matrix for the on-time
column (row 3, column 3) is the NaN marker, not 1: pandas leaves NaN
whenever the divisor vanishes, the diagonal included, so "every diagonal
entry is exactly 1.0" fails together with the constant-field clause. -/
theorem corr_diagonal_constant_counterexample :
    total_orders [recA, recC] = 2 ∧ recA ≠ recC ∧
    ((corr_matrix [recA, recC]).getD 3 []).getD 3 (some 0) = none := by
  refine ⟨rfl, by decide, ?_⟩
  norm_num [corr_matrix, numeric_columns, corr_entry, ssqdm, covSum, meanQ,
    recA, recC]

/-- C9 amended: over the numeric columns of any view, a column with
nonzero squared-deviation sum has diagonal correlation exactly 1, while
a column constant across the view makes every entry in its row and
column — the diagonal included — the NaN marker. -/
theorem corr_matrix_diagonal_and_constant (v : List Record) (xs ys : List ℚ)
    (hx : xs ∈ numeric_columns v) (hy : ys ∈ numeric_columns v) :
    (ssqdm xs ≠ 0 → corr_entry xs xs = some 1) ∧
    ((∀ a ∈ xs, ∀ b ∈ xs, a = b) →
      corr_entry xs ys = none ∧ corr_entry ys xs = none) := by
  constructor
  · intro hs
    rw [corr_entry]
    have hpos : ssqdm xs * ssqdm xs ≠ 0 := mul_ne_zero hs hs
    rw [if_neg hpos]
    have habs : |ssqdm xs| = ssqdm xs := abs_of_nonneg (ssqdm_nonneg xs)
    rw [show covSum xs xs = ssqdm xs from rfl, habs, div_self hpos]
  · intro hconst
    have h0 : ssqdm xs = 0 := ssqdm_const_eq_zero xs hconst
    constructor
    · rw [corr_entry, if_pos (by rw [h0, zero_mul])]
    · rw [corr_entry, if_pos (by rw [h0, mul_zero])]

/-- Witness for the amended C9: the cost column of a two-row view has
nonzero variance and diagonal correlation exactly 1. -/
theorem corr_matrix_diagonal_witness :
    corr_entry ([recA, recC].map Record.Cost_of_the_Product)
      ([recA, recC].map Record.Cost_of_the_Product) = some 1 :=
  (corr_matrix_diagonal_and_constant [recA, recC]
    ([recA, recC].map Record.Cost_of_the_Product)
    ([recA, recC].map Record.Discount_offered)
    (by simp [numeric_columns]) (by simp [numeric_columns])).1
    (by norm_num [ssqdm, covSum, meanQ, recA, recC])
